import Mathlib

/-!
Shallow embedding of the Volcano audio server (worker playback engine in
dist/worker.js and the gateway/dispatcher in src/index.ts).

Numbers that the source manipulates as JS doubles are modelled as rationals
(`ℚ`) where fractional values can occur (playback durations, filter
parameters) and as integers (`ℤ`) where the source only ever produces
integers (millisecond positions, track start/end).  `Math.floor` is the
integer floor.  JS template interpolation of a number is modelled by `ratStr`
below, which agrees with JS `Number#toString` on integral values (the only
values this development ever renders concretely).

Stateful classes become structures; methods become functions from the
structure to the structure (plus the messages they post, returned as lists).
Event-listener callbacks (player "stateChange" etc.) are separate transition
functions, never invoked synchronously inside the method that triggers them,
mirroring the event-loop semantics of the source.
-/

namespace Volcano

/-- Messages a queue posts to the parent port (worker.js `parentPort.postMessage`
with `op: MESSAGE`).  Only the payloads the claims need are distinguished. -/
inductive Event where
  | trackEnd (reason : String)
  | trackStart (track : String)
  deriving DecidableEq, Repr

/-- The track metadata a worker stores on a queue (`this.track` in worker.js,
built in the PLAY handler from the packet:
start/end/volume via `Number(... || "0")`, pause as a boolean). -/
structure Track where
  track : String
  start : ℤ
  end_ : ℤ
  volume : ℤ
  pause : Bool
  deriving DecidableEq, Repr

/-- The mutable state of worker.js's `Queue` that the claims touch.
`current` is `this.current?.playbackDuration` (`none` when `current === null`);
`playerPlaying` is `this.player.state.status === AudioPlayerStatus.Playing`;
`connected` is `this.connection.state.status === VoiceConnectionStatus.Ready`. -/
structure Queue where
  clientID : String
  guildID : String
  track : Option Track
  current : Option ℚ
  playerPlaying : Bool
  stopping : Bool
  filters : List String
  volume : ℚ
  applyingFilters : Bool
  shouldntCallFinish : Bool
  trackPausing : Bool
  initial : Bool
  seekTime : ℤ
  destroyed : Bool
  paused : Bool
  rate : ℚ
  connected : Bool
  deriving DecidableEq, Repr

/-- A fresh queue, as the `Queue` constructor initialises it. -/
def Queue.mk0 (clientID guildID : String) : Queue :=
  { clientID := clientID
    guildID := guildID
    track := none
    current := none
    playerPlaying := false
    stopping := false
    filters := []
    volume := 1
    applyingFilters := false
    shouldntCallFinish := false
    trackPausing := false
    initial := true
    seekTime := 0
    destroyed := false
    paused := false
    rate := 1
    connected := false }

/-- JS `x || d` for an optional number: the default is taken when the value
is absent or zero (zero is falsy in JS). -/
def jsOrQ (x : Option ℚ) (d : ℚ) : ℚ :=
  match x with
  | some v => if v = 0 then d else v
  | none => d

/-- JS `x || d` for an optional integer. -/
def jsOrZ (x : Option ℤ) (d : ℤ) : ℤ :=
  match x with
  | some v => if v = 0 then d else v
  | none => d

/-- Rendering of a number into a string, as the source's template literals do.
On integral values this is exactly JS `Number#toString`; non-integral values
are rendered as `num/den` (the development never evaluates that branch on a
concrete non-integral input). -/
def ratStr (q : ℚ) : String :=
  if q.den = 1 then toString q.num else toString q.num ++ "/" ++ toString q.den

/-- Queue.stop: set the stopping latch, stop the player, and post a
TrackEndEvent with reason STOPPED unless `shouldntPost`.  (The player's
Idle "stateChange" listener is a separate, asynchronous transition.) -/
def Queue.stopOp (q : Queue) (shouldntPost : Bool) : Queue × List Event :=
  ({ q with stopping := true, playerPlaying := false },
   if shouldntPost then [] else [Event.trackEnd ("STOPPED")])

/-- The position computed inside the `state` getter:
`Math.floor(((this.current?.playbackDuration || 0) + this.seekTime) * this.rate)`. -/
def Queue.position (q : Queue) : ℤ :=
  ⌊(jsOrQ q.current 0 + (q.seekTime : ℚ)) * q.rate⌋

/-- The player state reported by the `state` getter. -/
structure PlayerState where
  time : ℕ
  position : ℤ
  connected : Bool
  deriving DecidableEq, Repr

/-- The `state` getter of Queue: compute the position, internally stop when
the track has a (nonzero) end and the position has reached it, and return
`{time, position, connected}`.  `now` stands for `Date.now()`.  The getter's
side effects (the updated queue and any posted events) are returned
explicitly. -/
def Queue.stateOp (now : ℕ) (q : Queue) : PlayerState × Queue × List Event :=
  let position := q.position
  let step : Queue × List Event :=
    match q.track with
    | some t => if t.end_ ≠ 0 ∧ position ≥ t.end_ then q.stopOp true else (q, [])
    | none => (q, [])
  (⟨now, position, q.connected⟩, step)

/-- One playerUpdate heartbeat message: `{op: PLAYER_UPDATE, guildId, state}`. -/
structure PlayerUpdate where
  clientID : String
  guildId : String
  state : PlayerState
  deriving DecidableEq, Repr

/-- The 5-second `reportInterval` tick of worker.js: for every queue compute
`queue.state` (side effects included), and post a playerUpdate for each queue
that is not paused. -/
def reportTick (now : ℕ) (qs : List Queue) : List Queue × List PlayerUpdate :=
  match qs with
  | [] => ([], [])
  | q :: rest =>
    let s := Queue.stateOp now q
    let r := reportTick now rest
    (s.2.1 :: r.1,
     (if q.paused then [] else [⟨q.clientID, q.guildID, s.1⟩]) ++ r.2)

/-- JS `indexOf("-ss")` followed by `splice(index, 2)` on the filter chain:
remove the first `-ss` and the single element after it (the seek value);
the chain is unchanged when it contains no `-ss`. -/
def spliceSS : List String → List String
  | [] => []
  | x :: xs => if x = "-ss" then xs.drop 1 else x :: spliceSS xs

/-- Queue.seek: splice out a previous `-ss` and its value (two elements only),
push `-ss <amount>ms -accurate_seek` at the END of the chain, launch `play()`
if the applying-filters latch is clear, set the latch, and record `seekTime`.
The returned boolean says whether a `play()` was launched. -/
def Queue.seekOp (q : Queue) (amount : ℤ) : Queue × Bool :=
  let fs := spliceSS q.filters ++ ["-ss", ratStr ((jsOrZ (some amount) 0 : ℤ) : ℚ) ++ "ms", "-accurate_seek"]
  ({ q with filters := fs, applyingFilters := true, seekTime := amount },
   !q.applyingFilters)

/-- What claim C3 says seek does to the chain (stated from the claim's words,
for comparison with the source's `Queue.seekOp`): prepend the three tokens,
replacing an existing `-ss` entry together with its value and its
`-accurate_seek` token (a three-element removal). -/
def seekChainClaimed (fs : List String) (amount : ℤ) : List String :=
  let removed : List String :=
    match fs.findIdx? (· = "-ss") with
    | some i => fs.take i ++ fs.drop (i + 3)
    | none => fs
  ["-ss", ratStr ((amount : ℤ) : ℚ) ++ "ms", "-accurate_seek"] ++ removed

/-- What claim C9 says the recorded seek position is (stated from the claim's
words): the requested position clamped to the track's length. -/
def seekTimeClaimed (length amount : ℤ) : ℤ :=
  min amount length

/-- One equalizer request entry: `{band, gain}`. -/
structure EqBand where
  band : ℤ
  gain : ℚ
  deriving DecidableEq, Repr

/-- One element of the worker's `bandSettings` array. -/
structure BandSetting where
  band : ℤ
  gain : ℚ
  deriving DecidableEq, Repr

/-- The `timescale` member of a FilterSpec; each field may be absent. -/
structure Timescale where
  rate : Option ℚ
  pitch : Option ℚ
  speed : Option ℚ
  deriving DecidableEq, Repr

/-- The `tremolo`/`vibrato` members: `{frequency, depth}`, each optional. -/
structure Oscillate where
  frequency : Option ℚ
  depth : Option ℚ
  deriving DecidableEq, Repr

/-- The FilterSpec payload of a FILTERS command (each member absent or
present; a present member is a JS object and hence truthy). `rotation`
carries the optional `rotationHz`; `lowPass` carries `smoothing`. -/
structure FilterSpec where
  volume : Option ℚ
  equalizer : Option (List EqBand)
  timescale : Option Timescale
  tremolo : Option Oscillate
  vibrato : Option Oscillate
  rotation : Option (Option ℚ)
  lowPass : Option ℚ
  deriving DecidableEq, Repr

/-- The FilterSpec with every member absent. -/
def FilterSpec.empty : FilterSpec :=
  ⟨none, none, none, none, none, none, none⟩

/-- A JS sparse array of `n` holes, as produced by `Array(n)`: a list of
`n` `none`s (`none` is a hole). -/
def jsEmptyArray (n : ℕ) : List (Option Unit) :=
  List.replicate n none

/-- JS `Array.prototype.map` with an index-using callback: the callback is
NOT invoked on holes, which remain holes in the result. -/
def jsMapIdx (cb : ℕ → Unit → BandSetting) (l : List (Option Unit)) : List (Option BandSetting) :=
  l.mapIdx (fun i x => x.map (cb i))

/-- One pass of `bandSettings.find(i => i.band === eq.band)` followed by the
guarded mutation `if (cur) cur.gain = eq.gain`.  JS `Array.prototype.find`
DOES visit holes, handing the callback `undefined`; the callback then
evaluates `i.band` on `undefined` and throws a TypeError — modelled as
`Except.error`.  When the callback finds a matching element, the in-place
mutation updates that element; when the walk ends without a match, `find`
returns `undefined` and the `if (cur)` guard skips the update. -/
def updateBand : List (Option BandSetting) → ℤ → ℚ → Except Unit (List (Option BandSetting))
  | [], _, _ => .ok []
  | none :: _, _, _ => .error ()
  | some s :: rest, b, g =>
    if s.band = b then .ok (some { s with gain := g } :: rest)
    else
      match updateBand rest b g with
      | .error u => .error u
      | .ok r => .ok (some s :: r)

/-- The `for (const eq of filters.equalizer)` loop over `updateBand`. -/
def eqLoop (bs : List (Option BandSetting)) : List EqBand → Except Unit (List (Option BandSetting))
  | [] => .ok bs
  | e :: rest =>
    match updateBand bs e.band e.gain with
    | .error u => .error u
    | .ok bs2 => eqLoop bs2 rest

/-- `bandSettings.map(i => `equalizer=...`).join(",")`: map skips holes;
`join` renders a hole as the empty string.  `eqGain` stands for the float
computation `Math.round(Math.log2(gain) * 12)` (an external math-library
call, kept abstract). -/
def eqJoin (eqGain : ℚ → ℤ) (bs : List (Option BandSetting)) : String :=
  String.intercalate (",") (bs.map (fun b =>
    match b with
    | some s => "equalizer=width_type=h:gain=" ++ toString (eqGain s.gain)
    | none => ""))

/-- The `-ss` preservation at the head of Queue.filters:
`if (this._filters.includes("-ss")) toApply.push("-ss", this._filters[this._filters.indexOf("-ss") + 2])`.
Note the source reads the element TWO positions after `-ss` (out-of-range
indexing yields `undefined`). -/
def preservedSS : List String → List String
  | [] => []
  | x :: xs => if x = "-ss" then ["-ss", xs.getD 1 ("undefined")] else preservedSS xs

/-- Queue.filters: assemble the new chain from the FilterSpec, preserving a
previous `-ss`, and re-arm.  The chain is cleared (`this._filters.length = 0`)
before the branches run; when the equalizer branch throws (see `updateBand`)
the function aborts with the chain left cleared and the applying-filters
latch untouched — returned as `Except.error` carrying that queue state.
On success the returned boolean says whether a `play()` was launched. -/
def Queue.filtersOp (eqGain : ℚ → ℤ) (q : Queue) (f : FilterSpec) : Except Queue (Queue × Bool) :=
  let toApply0 := preservedSS q.filters
  let toApply1 := toApply0 ++
    (match f.volume with
     | some v => if v ≠ 0 then ["volume=" ++ ratStr v] else []
     | none => [])
  let eqStep : Except Queue (List String) :=
    match f.equalizer with
    | some eqs =>
      if eqs ≠ [] then
        match eqLoop (jsMapIdx (fun i _ => ⟨(i : ℤ), 2/10⟩) (jsEmptyArray 15)) eqs with
        | .ok bs => .ok (toApply1 ++ [eqJoin eqGain bs])
        | .error _ => .error { q with filters := [] }
      else .ok toApply1
    | none => .ok toApply1
  match eqStep with
  | .error q2 => .error q2
  | .ok toApply2 =>
    let step3 : List String × ℚ :=
      match f.timescale with
      | some ts =>
        let rate := jsOrQ ts.rate 1
        let pitch := jsOrQ ts.pitch 1
        let speed := jsOrQ ts.speed 1
        let speeddif := 1 - pitch
        let finalspeed := speed + speeddif
        let ratedif := 1 - rate
        (toApply2 ++ ["aresample=48000,asetrate=48000*" ++ ratStr (pitch + ratedif) ++
          ",atempo=" ++ ratStr finalspeed ++ ",aresample=48000"], speed)
      | none => (toApply2, q.rate)
    let toApply4 := step3.1 ++
      (match f.tremolo with
       | some t => ["tremolo=f=" ++ ratStr (jsOrQ t.frequency 2) ++ ":d=" ++ ratStr (jsOrQ t.depth (1/2))]
       | none => [])
    let toApply5 := toApply4 ++
      (match f.vibrato with
       | some t => ["vibrato=f=" ++ ratStr (jsOrQ t.frequency 2) ++ ":d=" ++ ratStr (jsOrQ t.depth (1/2))]
       | none => [])
    let toApply6 := toApply5 ++
      (match f.rotation with
       | some hz => ["apulsator=hz=" ++ ratStr (jsOrQ hz 0)]
       | none => [])
    let toApply7 := toApply6 ++
      (match f.lowPass with
       | some smoothing => ["lowpass=f=" ++ ratStr (500 / smoothing)]
       | none => [])
    .ok ({ q with filters := toApply7, rate := step3.2, applyingFilters := true },
      !q.applyingFilters)

/-- Queue.ffmpeg: replace the chain with the raw argument list and re-arm.
The boolean says whether a `play()` was launched. -/
def Queue.ffmpegOp (q : Queue) (args : List String) : Queue × Bool :=
  ({ q with filters := args, applyingFilters := true }, !q.applyingFilters)

/-- A re-arming call on a queue: seek, filters, or a raw ffmpeg command. -/
inductive RearmOp where
  | seek (amount : ℤ)
  | filt (spec : FilterSpec)
  | ffmpeg (args : List String)

/-- Apply one re-arm call; the boolean says whether it launched a `play()`.
A filters call that throws in the equalizer branch launches nothing. -/
def applyRearm (eqGain : ℚ → ℤ) (q : Queue) : RearmOp → Queue × Bool
  | .seek a => q.seekOp a
  | .filt s =>
    match q.filtersOp eqGain s with
    | .ok r => r
    | .error q2 => (q2, false)
  | .ffmpeg args => q.ffmpegOp args

/-- Number of `play()` launches across a consecutive sequence of re-arm
calls (no play-pipeline progress in between). -/
def cascadeLaunches (eqGain : ℚ → ℤ) (q : Queue) : List RearmOp → ℕ
  | [] => 0
  | op :: rest =>
    let r := applyRearm eqGain q op
    (if r.2 then 1 else 0) + cascadeLaunches eqGain r.1 rest

/-- The tail of Queue.play after the audio-resource promise resolves
(worker.js: `if (this.applyingFilters) return resource.playStream.destroy();`):
when a newer re-arm has set the applying-filters latch, destroy the fresh
playStream (boolean `true`) and return without touching `current`; otherwise
make the resource current, honour a pending track-level pause request, and
hand the resource to the player.  `meta` is the track captured at the start
of `play()`; `resource` is the new resource's playback duration. -/
def Queue.playResourceReady (q : Queue) (meta : Track) (resource : ℚ) : Queue × Bool :=
  if q.applyingFilters then (q, true)
  else
    ({ q with
        current := some resource
        trackPausing := if meta.pause then true else q.trackPausing
        playerPlaying := true }, false)

/-- The payload of a PLAY command as the worker reads it
(`startTime`/`endTime`/`volume` pass through `Number(x || "0")` etc., so an
absent or zero field takes its default; `noReplace` is compared with `=== true`). -/
structure PlayData where
  track : String
  startTime : Option ℤ
  endTime : Option ℤ
  volume : Option ℤ
  pause : Bool
  noReplace : Bool
  deriving DecidableEq, Repr

/-- The Track the worker's PLAY handler builds from the packet. -/
def mkTrack (pd : PlayData) : Track :=
  { track := pd.track
    start := jsOrZ pd.startTime 0
    end_ := jsOrZ pd.endTime 0
    volume := jsOrZ pd.volume 100
    pause := pd.pause }

/-- Queue.nextSong: reset the seek offset, mark initial, and launch `play()`
when a track is present (boolean result: play launched). -/
def Queue.nextSongOp (q : Queue) : Queue × Bool :=
  let q2 := { q with seekTime := 0, initial := true }
  match q2.track with
  | none => (q2, false)
  | some _ => (q2, true)

/-- Queue.replace: when the player is currently playing, stop internally and
post `TrackEndEvent REPLACED`; then nextSong.  Returns the updated queue,
whether play() was launched, and the posted events. -/
def Queue.replaceOp (q : Queue) : Queue × Bool × List Event :=
  let s : Queue × List Event :=
    if q.playerPlaying then
      let r := q.stopOp true
      (r.1, r.2 ++ [Event.trackEnd ("REPLACED")])
    else (q, [])
  let n := s.1.nextSongOp
  (n.1, n.2, s.2)

/-- Queue.queue(track): store the track, then replace. -/
def Queue.queueOp (q : Queue) (t : Track) : Queue × Bool × List Event :=
  Queue.replaceOp { q with track := some t }

/-- A worker's queue map (`queues: Map<key, Queue>`), as an association list
in insertion order. -/
abbrev WorkerQueues := List (String × Queue)

/-- JS Map.get on an association list (keys are unique in a Map; the first
match is the entry). -/
def alistGet {α : Type} : List (String × α) → String → Option α
  | [], _ => none
  | p :: rest, k => if p.1 = k then some p.2 else alistGet rest k

/-- JS Map.set: replace the existing entry in place, or append a new one. -/
def alistSet {α : Type} : List (String × α) → String → α → List (String × α)
  | [], k, v => [(k, v)]
  | p :: rest, k, v => if p.1 = k then (k, v) :: rest else p :: alistSet rest k v

/-- JS Map.delete. -/
def alistDelete {α : Type} : List (String × α) → String → List (String × α)
  | [], _ => []
  | p :: rest, k => if p.1 = k then alistDelete rest k else p :: alistDelete rest k

/-- Map lookup by key (`queues.get(key)`). -/
def lookupKey (w : WorkerQueues) (k : String) : Option Queue :=
  alistGet w k

/-- Map update by key (`queues.set(key, q)`). -/
def setKey (w : WorkerQueues) (k : String) (q : Queue) : WorkerQueues :=
  alistSet w k q

/-- Result of the worker's PLAY case: updated queue map, the REPLY posted
for a broadcast (if any), whether a play() was launched, and posted events. -/
structure PlayOutcome where
  queues : WorkerQueues
  reply : Option Bool
  launched : Bool
  events : List Event
  deriving DecidableEq, Repr

/-- The PLAY case of the worker's message handler: with no queue for the key,
a broadcast packet is answered `false`; a non-broadcast packet joins the
voice room, creates the Queue and enqueues the track.  With an existing
queue, a broadcast packet is answered `true`; then, unless `noReplace` is
set while the player is playing (in which case the request is skipped), the
track is enqueued on the existing queue. -/
def workerPlay (w : WorkerQueues) (broadcasted : Bool) (userID guildID : String)
    (pd : PlayData) : PlayOutcome :=
  let key := userID ++ "." ++ guildID
  match lookupKey w key with
  | none =>
    if broadcasted then ⟨w, some false, false, []⟩
    else
      let q := Queue.mk0 userID guildID
      let r := q.queueOp (mkTrack pd)
      ⟨setKey w key r.1, none, r.2.1, r.2.2⟩
  | some q =>
    let reply : Option Bool := if broadcasted then some true else none
    if pd.noReplace ∧ q.playerPlaying then ⟨w, reply, false, []⟩
    else
      let r := q.queueOp (mkTrack pd)
      ⟨setKey w key r.1, reply, r.2.1, r.2.2⟩

/-- Modelled from the spec: `ThreadPool.execute` places a message on the
worker with the fewest live Queues, ties broken by lowest index.  The
ThreadPool implementation (src/util/ThreadPool) is not among the provided
sources; this index computation follows the spec's description. -/
def leastLoadedIdx (ws : List WorkerQueues) : ℕ :=
  match (List.map List.length ws).min? with
  | some m => List.findIdx (fun w => List.length w = m) ws
  | none => 0

/-- The gateway's PLAY routing (onClientMessage case PLAY): broadcast to
every worker and collect replies; when no worker replied `true`, execute the
same message un-broadcasted on the least-loaded worker. -/
def dispatchPlay (ws : List WorkerQueues) (userID guildID : String) (pd : PlayData) :
    List WorkerQueues :=
  let results := List.map (fun w => workerPlay w true userID guildID pd) ws
  let replies := List.map PlayOutcome.reply results
  let ws2 := List.map PlayOutcome.queues results
  if (some true) ∈ replies then ws2
  else
    let i := leastLoadedIdx ws2
    ws2.set i (workerPlay (ws2.getD i []) false userID guildID pd).queues

/-- A connection record of the gateway (`{socket, resumeKey, resumeTimeout}`).
Sockets are modelled by numeric identifiers; the socket field of a record is
always an object in the source, hence always truthy. -/
structure ConnRecord where
  socket : ℕ
  resumeKey : Option String
  resumeTimeout : ℤ
  deriving DecidableEq, Repr

/-- A ResumeBuffer held in `socketDeleteTimeouts`: a live expiry timer plus
the events buffered while the client is disconnected (outbound frames,
modelled opaquely as strings, in buffering order). -/
structure ResumeBuffer where
  events : List String
  deriving DecidableEq, Repr

/-- The gateway's mutable maps relevant to resume and outbound delivery. -/
structure GatewayState where
  connections : List (String × List ConnRecord)
  socketDeleteTimeouts : List (String × ResumeBuffer)
  playerMap : List (String × ℕ)
  deriving DecidableEq, Repr

/-- JS truthiness of an optional header/string value: present and non-empty. -/
def truthyStr : Option String → Option String
  | some s => if s = "" then none else some s
  | none => none

/-- Outcome of an upgrade request: the `Session-Resumed` header value, the
events replayed on the new socket (in order, before anything else is sent),
and the updated gateway state. -/
structure UpgradeOutcome where
  sessionResumed : Bool
  replayed : List String
  state : GatewayState
  deriving DecidableEq, Repr

/-- The resume handling of the gateway's upgrade path.  The `headers` event
computes `Session-Resumed: !!resume-key && socketDeleteTimeouts.has(key)`;
the upgrade callback, under the same condition, cancels the buffer's expiry
timer and removes it from the map, attaches the new socket to the matching
connection record (or appends a fresh record), and replays every buffered
event on the new socket in buffering order before the connection proceeds. -/
def handleUpgrade (g : GatewayState) (userID : String) (resumeKeyHeader : Option String)
    (s : ℕ) : UpgradeOutcome :=
  match truthyStr resumeKeyHeader with
  | some k =>
    match alistGet g.socketDeleteTimeouts k with
    | some buf =>
      let conns :=
        match alistGet g.connections userID with
        | some exist =>
          let updated :=
            if (List.find? (fun c => c.resumeKey = some k) exist).isSome
            then List.map (fun c => if c.resumeKey = some k then { c with socket := s } else c) exist
            else exist ++ [⟨s, none, 60⟩]
          alistSet g.connections userID updated
        | none => alistSet g.connections userID [⟨s, none, 60⟩]
      { sessionResumed := true
        replayed := buf.events
        state := { g with
          socketDeleteTimeouts := alistDelete g.socketDeleteTimeouts k,
          connections := conns } }
    | none =>
      let conns2 := alistSet g.connections userID
        ((alistGet g.connections userID).getD [] ++ [⟨s, none, 60⟩])
      { sessionResumed := false
        replayed := []
        state := { g with connections := conns2 } }
  | none =>
    let conns2 := alistSet g.connections userID
      ((alistGet g.connections userID).getD [] ++ [⟨s, none, 60⟩])
    { sessionResumed := false
      replayed := []
      state := { g with connections := conns2 } }

/-- Outcome of the gateway's outbound handler for one worker event. -/
structure OutboundOutcome where
  state : GatewayState
  appended : Bool
  sentOn : Option ℕ
  deriving DecidableEq, Repr

/-- The resume-key decision of the gateway's `pool.on("message")` handler:
look the target socket up in `playerMap`; find the connection list containing
that socket; take its first record (`entry?.find(c => c.socket)` — every
record's socket field holds a socket object, which is truthy, so this is the
first record); the decision is that record's resume key when the key has a
ResumeBuffer in `socketDeleteTimeouts`.  The handler then pushes the event
onto that buffer when the decision is positive, and in every case attempts
`socket?.send` (performed whenever the socket lookup succeeded). -/
def outboundActiveKey (g : GatewayState) (clientID guildId : String) : Option String :=
  let socket := alistGet g.playerMap (clientID ++ "." ++ guildId)
  let entry :=
    List.find? (fun conns => List.any conns (fun c => socket = some c.socket))
      (List.map Prod.snd g.connections)
  let rKey := entry.bind List.head?
  match rKey with
  | some r =>
    match r.resumeKey with
    | some k => if (alistGet g.socketDeleteTimeouts k).isSome then some k else none
    | none => none
  | none => none

/-- The body of the outbound handler, given the resume-key decision. -/
def poolOnMessage (g : GatewayState) (clientID guildId : String) (payload : String) :
    OutboundOutcome :=
  let socket := alistGet g.playerMap (clientID ++ "." ++ guildId)
  let active := outboundActiveKey g clientID guildId
  let g2 :=
    match active with
    | some k =>
      match alistGet g.socketDeleteTimeouts k with
      | some buf =>
        let sdt := alistSet g.socketDeleteTimeouts k { buf with events := buf.events ++ [payload] }
        { g with socketDeleteTimeouts := sdt }
      | none => g
    | none => g
  { state := g2, appended := active.isSome, sentOn := socket }

/-- The decoded track blob (the fields `@lavalink/encoding`'s `decode`
yields; the wire format carries no seekability flag). -/
structure TrackInfo where
  flags : ℤ
  version : ℤ
  title : String
  author : String
  length : ℤ
  identifier : String
  isStream : Bool
  uri : Option String
  source : String
  position : ℤ
  deriving DecidableEq, Repr

/-- The response info object for one decoded track. -/
structure TrackResponse where
  identifier : String
  isSeekable : Bool
  author : String
  length : ℤ
  isStream : Bool
  position : ℤ
  title : String
  uri : Option String
  sourceName : String
  deriving DecidableEq, Repr

/-- index.ts `convertDecodedTrackToResponse`. -/
def convertDecodedTrackToResponse (data : TrackInfo) : TrackResponse :=
  { identifier := data.identifier
    isSeekable := !data.isStream
    author := data.author
    length := data.length
    isStream := data.isStream
    position := data.position
    title := data.title
    uri := data.uri
    sourceName := data.source }

/-- GET /decodetracks with a single `track` query value: decode and convert.
`decode` stands for the external `@lavalink/encoding` decoder. -/
def decodetracksSingle (decode : String → TrackInfo) (t : String) : TrackResponse :=
  convertDecodedTrackToResponse (decode t)

/-- GET /decodetracks with a repeated `track` query value: map each blob to
`{track, info}` preserving the order. -/
def decodetracksMulti (decode : String → TrackInfo) (ts : List String) :
    List (String × TrackResponse) :=
  List.map (fun i => (i, convertDecodedTrackToResponse (decode i))) ts

/-- The SEEK case of the worker's message handler:
`queues.get(key)?.seek(packet.data.position)` — the requested position is
handed to Queue.seek unchanged; no track length is consulted anywhere on
this path (neither here nor in Queue.seek). -/
def workerSeek (w : WorkerQueues) (userID guildID : String) (position : ℤ) : WorkerQueues :=
  let key := userID ++ "." ++ guildID
  match lookupKey w key with
  | none => w
  | some q => setKey w key (q.seekOp position).1

/-- Example queue whose chain already holds a seek entry. -/
def qSS : Queue :=
  { Queue.mk0 ("c") ("g") with filters := ["-ss", "5ms", "-accurate_seek"] }

/-- Example queue playing a track with end-ms 100 whose position (1500 ms)
is past the end. -/
def qEnd : Queue :=
  { Queue.mk0 ("c") ("g") with
      track := some ⟨"T", 0, 100, 100, false⟩
      current := some 1500 }

/-- Example queue with the applying-filters latch set. -/
def qAF : Queue :=
  { Queue.mk0 ("c") ("g") with applyingFilters := true }

/-- Example track metadata. -/
def trkEx : Track :=
  ⟨"T", 0, 0, 100, false⟩

/-- Example PLAY payload. -/
def pdEx : PlayData :=
  { track := "T", startTime := none, endTime := none, volume := none,
    pause := false, noReplace := false }

/-- Example PLAY payload with no-replace set. -/
def pdNR : PlayData :=
  { pdEx with noReplace := true }

/-- Example worker owning key `c.g` with a currently playing player. -/
def wOwn : WorkerQueues :=
  [(("c") ++ "." ++ ("g"), { Queue.mk0 ("c") ("g") with playerPlaying := true })]

/-- Example FilterSpec carrying a timescale (speed 2) and a tremolo. -/
def fsTsTrem : FilterSpec :=
  { FilterSpec.empty with timescale := some ⟨none, none, some 2⟩, tremolo := some ⟨none, none⟩ }

/-- Example FilterSpec carrying both a timescale (speed 2) and a non-empty
equalizer array. -/
def fsTsEq : FilterSpec :=
  { FilterSpec.empty with timescale := some ⟨none, none, some 2⟩, equalizer := some [⟨0, 1⟩] }

/-- Example gateway state holding a ResumeBuffer with two buffered events. -/
def gEx : GatewayState :=
  { connections := []
    socketDeleteTimeouts := [(("k"), ⟨["e1", "e2"]⟩)]
    playerMap := [] }

/-- Example gateway state where the target socket exists in `playerMap`
while its connection's resume key has an active ResumeBuffer. -/
def gBoth : GatewayState :=
  { connections := [(("42"), [⟨1, some ("k"), 60⟩])]
    socketDeleteTimeouts := [(("k"), ⟨[]⟩)]
    playerMap := [(("c") ++ "." ++ ("g"), 1)] }

/-! Helper lemmas. -/

theorem jsOrQ_getD (x : Option ℚ) : jsOrQ x 0 = x.getD 0 := by
  cases x with
  | none => rfl
  | some v =>
    simp only [jsOrQ, Option.getD_some]
    split <;> simp_all

theorem jsOrZ_some_zero (a : ℤ) : jsOrZ (some a) 0 = a := by
  simp only [jsOrZ]
  split <;> simp_all

theorem alistGet_set_self {α : Type} (l : List (String × α)) (k : String) (v : α) :
    alistGet (alistSet l k v) k = some v := by
  induction l with
  | nil => simp [alistSet, alistGet]
  | cons p rest ih =>
    by_cases hp : p.1 = k
    · simp [alistSet, alistGet, hp]
    · simp [alistSet, alistGet, hp, ih]

theorem alistGet_delete_self {α : Type} (l : List (String × α)) (k : String) :
    alistGet (alistDelete l k) k = none := by
  induction l with
  | nil => rfl
  | cons p rest ih =>
    by_cases hp : p.1 = k
    · simp [alistDelete, hp, ih]
    · simp [alistDelete, alistGet, hp, ih]

theorem reportTick_snd (now : ℕ) : ∀ qs : List Queue,
    (reportTick now qs).2 =
      List.map
        (fun q => (⟨q.clientID, q.guildID, now, Queue.position q, q.connected⟩ : PlayerUpdate))
        (List.filter (fun q => !q.paused) qs)
  | [] => rfl
  | q :: rest => by
    cases hq : q.paused <;>
      simp [reportTick, reportTick_snd now rest, List.filter, hq, Queue.stateOp]

theorem count_spliceSS (fs : List String) (h : fs.count ("-ss") ≤ 1) :
    (spliceSS fs).count ("-ss") = 0 := by
  induction fs with
  | nil => rfl
  | cons x xs ih =>
    by_cases hx : x = "-ss"
    · subst hx
      have hs : spliceSS ("-ss" :: xs) = xs.drop 1 := by simp [spliceSS]
      rw [hs]
      simp only [List.count_cons_self] at h
      have h0 : xs.count ("-ss") = 0 := by omega
      have hd := (List.drop_sublist 1 xs).count_le ("-ss")
      omega
    · have hs : spliceSS (x :: xs) = x :: spliceSS xs := by simp [spliceSS, hx]
      rw [hs]
      rw [List.count_cons_of_ne (Ne.symm hx)] at h
      rw [List.count_cons_of_ne (Ne.symm hx)]
      exact ih h

theorem append_ms_ne_ss (a : String) : ¬ (a ++ "ms" = "-ss") := by
  intro h
  have hd : a.data ++ ("ms").data = ("-ss").data := by
    rw [← String.data_append, h]
  have hlen : a.data.length + 2 = 3 := by
    simpa using congrArg List.length hd
  obtain ⟨c, hc⟩ := List.length_eq_one.mp (by omega : a.data.length = 1)
  rw [hc] at hd
  simp at hd

theorem queueOp_track (q : Queue) (t : Track) : (q.queueOp t).1.track = some t := by
  cases hp : q.playerPlaying <;>
    simp [Queue.queueOp, Queue.replaceOp, Queue.stopOp, Queue.nextSongOp, hp]

/-! Claim theorems. -/

/-- C1: the `state` getter reports
`position = floor((playback duration of the current resource, or 0 when
there is no current resource, + seek time) * rate)`; whenever the queue's
track has a nonzero end and this position has reached it, computing the
state stops the queue internally (the stopping latch flips, no event is
posted); and the 5-second heartbeat posts exactly this position for each
non-paused queue. -/
theorem claim1_position_sole_authority :
    (∀ (now : ℕ) (q : Queue),
      (Queue.stateOp now q).1.position =
        ⌊(q.current.getD 0 + (q.seekTime : ℚ)) * q.rate⌋)
    ∧ (∀ (now : ℕ) (q : Queue) (t : Track), q.track = some t → t.end_ ≠ 0 →
        Queue.position q ≥ t.end_ →
        (Queue.stateOp now q).2.1.stopping = true ∧ (Queue.stateOp now q).2.2 = [])
    ∧ (∀ (now : ℕ) (qs : List Queue),
        (reportTick now qs).2 =
          List.map
            (fun q => (⟨q.clientID, q.guildID, now, Queue.position q, q.connected⟩ : PlayerUpdate))
            (List.filter (fun q => !q.paused) qs)) := by
  refine ⟨?_, ?_, ?_⟩
  · intro now q
    simp [Queue.stateOp, Queue.position, jsOrQ_getD]
  · intro now q t ht hend hpos
    simp [Queue.stateOp, ht, hend, hpos, Queue.stopOp]
  · intro now qs
    exact reportTick_snd now qs

/-- Witness for C1: a queue playing past its end-ms 100 is stopped with
event posting suppressed by the state computation. -/
theorem claim1_witness :
    qEnd.track = some ⟨"T", 0, 100, 100, false⟩ ∧
    (Queue.stateOp 0 qEnd).2.1.stopping = true ∧ (Queue.stateOp 0 qEnd).2.2 = [] :=
  ⟨rfl, claim1_position_sole_authority.2.1 0 qEnd ⟨"T", 0, 100, 100, false⟩ rfl
    (by decide)
    (by norm_num [Queue.position, qEnd, Queue.mk0, jsOrQ])⟩

/-- C3 counterexample: on the chain `[-ss, 5ms, -accurate_seek]`, seeking to
7 ms produces `[-accurate_seek, -ss, 7ms, -accurate_seek]` — the new tokens
are appended, not prepended, and the superseded `-accurate_seek` token
survives — which differs from the chain the claim describes. -/
theorem claim3_counterexample :
    (qSS.seekOp 7).1.filters = ["-accurate_seek", "-ss", "7ms", "-accurate_seek"] ∧
    seekChainClaimed qSS.filters 7 = ["-ss", "7ms", "-accurate_seek"] ∧
    (qSS.seekOp 7).1.filters ≠ seekChainClaimed qSS.filters 7 := by
  refine ⟨by decide, by decide, by decide⟩

/-- C3 as amended: seek removes a previous `-ss` together with its value
(the old `-accurate_seek` token stays), appends
`-ss <amount>ms -accurate_seek` at the end of the chain, and records
seek-time; the chain then holds exactly one `-ss` entry provided it held at
most one before. -/
theorem claim3_seek_appends (q : Queue) (amount : ℤ) :
    (q.seekOp amount).1.filters =
      spliceSS q.filters ++ ["-ss", ratStr (amount : ℚ) ++ "ms", "-accurate_seek"] ∧
    (q.seekOp amount).1.seekTime = amount ∧
    (q.filters.count ("-ss") ≤ 1 →
      ((q.seekOp amount).1.filters).count ("-ss") = 1) := by
  refine ⟨by simp [Queue.seekOp, jsOrZ_some_zero], rfl, ?_⟩
  intro h
  simp only [Queue.seekOp, jsOrZ_some_zero]
  rw [List.count_append, count_spliceSS q.filters h]
  simp [List.count_cons, append_ms_ne_ss]

/-- Witness for C3 (amended): a concrete seek with at most one prior `-ss`. -/
theorem claim3_witness :
    (qSS.seekOp 7).1.seekTime = 7 ∧ ((qSS.seekOp 7).1.filters).count ("-ss") = 1 :=
  ⟨(claim3_seek_appends qSS 7).2.1, (claim3_seek_appends qSS 7).2.2 (by decide)⟩

/-- C9 counterexample: a SEEK to 5000 ms on a queue is recorded verbatim —
seek-time 5000 and chain token `5000ms` — even though the claim's clamping
to a track length of 1000 ms would record 1000. -/
theorem claim9_counterexample :
    (lookupKey (workerSeek wOwn (("c")) (("g")) 5000) (("c") ++ "." ++ ("g"))).map
      Queue.seekTime = some 5000 ∧
    ((Queue.mk0 ("c") ("g")).seekOp 5000).1.filters = ["-ss", "5000ms", "-accurate_seek"] ∧
    seekTimeClaimed 1000 5000 = 1000 ∧ (5000 : ℤ) ≠ seekTimeClaimed 1000 5000 := by
  refine ⟨by decide, by decide, by decide, by decide⟩

/-- C9 as amended: the worker's SEEK handler records the requested position
verbatim — seek-time becomes the request and the chain gains
`-ss <position>ms -accurate_seek` — with no clamping to the track length
anywhere on the path. -/
theorem claim9_seek_not_clamped (w : WorkerQueues) (uid gid : String) (pos : ℤ) (q : Queue)
    (h : lookupKey w (uid ++ "." ++ gid) = some q) :
    ∃ q2, lookupKey (workerSeek w uid gid pos) (uid ++ "." ++ gid) = some q2 ∧
      q2.seekTime = pos ∧
      q2.filters = spliceSS q.filters ++ ["-ss", ratStr (pos : ℚ) ++ "ms", "-accurate_seek"] := by
  refine ⟨(q.seekOp pos).1, ?_, rfl, by simp [Queue.seekOp, jsOrZ_some_zero]⟩
  simp only [workerSeek, h]
  exact alistGet_set_self w (uid ++ "." ++ gid) (q.seekOp pos).1

/-- Witness for C9 (amended): concrete seek through the worker handler. -/
theorem claim9_witness :
    ∃ q2, lookupKey (workerSeek wOwn (("c")) (("g")) 5000) (("c") ++ "." ++ ("g")) = some q2 ∧
      q2.seekTime = 5000 ∧
      q2.filters = spliceSS (Queue.mk0 ("c") ("g")).filters ++
        ["-ss", ratStr ((5000 : ℤ) : ℚ) ++ "ms", "-accurate_seek"] :=
  claim9_seek_not_clamped wOwn ("c") ("g") 5000
    { Queue.mk0 ("c") ("g") with playerPlaying := true } (by decide)

/-- C10: /decodetracks reports `isSeekable` as exactly the negation of the
decoded blob's `isStream`, for a single track value and for each element of
a repeated track value (the decoded blob carries no seekability flag of its
own to consult — the response is a function of `isStream` alone). -/
theorem claim10_isSeekable (decode : String → TrackInfo) (t : String) (ts : List String) :
    (decodetracksSingle decode t).isSeekable = !(decode t).isStream ∧
    List.map (fun p => p.2.isSeekable) (decodetracksMulti decode ts) =
      List.map (fun i => !(decode i).isStream) ts := by
  refine ⟨rfl, ?_⟩
  simp only [decodetracksMulti, List.map_map]
  rfl

theorem filtersOp_shape (eqGain : ℚ → ℤ) (q : Queue) (f : FilterSpec) :
    (∃ fs rt, Queue.filtersOp eqGain q f =
      .ok ({ q with filters := fs, rate := rt, applyingFilters := true }, !q.applyingFilters))
    ∨ Queue.filtersOp eqGain q f = .error { q with filters := [] } := by
  unfold Queue.filtersOp
  cases hf : f.equalizer with
  | none => exact Or.inl ⟨_, _, rfl⟩
  | some eqs =>
    by_cases he : eqs = []
    · subst he
      exact Or.inl ⟨_, _, rfl⟩
    · simp only [if_pos (by exact he)]
      cases hl : eqLoop (jsMapIdx (fun i _ => ⟨(i : ℤ), 2/10⟩) (jsEmptyArray 15)) eqs with
      | ok bs => exact Or.inl ⟨_, _, rfl⟩
      | error u => exact Or.inr rfl

theorem applyRearm_af_true (eqGain : ℚ → ℤ) (q : Queue) (op : RearmOp)
    (h : q.applyingFilters = true) :
    (applyRearm eqGain q op).2 = false ∧ (applyRearm eqGain q op).1.applyingFilters = true := by
  cases op with
  | seek a => simp [applyRearm, Queue.seekOp, h]
  | ffmpeg args => simp [applyRearm, Queue.ffmpegOp, h]
  | filt s =>
    rcases filtersOp_shape eqGain q s with ⟨fs, rt, hok⟩ | herr
    · simp [applyRearm, hok, h]
    · simp [applyRearm, herr, h]

theorem applyRearm_launch_sets (eqGain : ℚ → ℤ) (q : Queue) (op : RearmOp)
    (h : (applyRearm eqGain q op).2 = true) :
    (applyRearm eqGain q op).1.applyingFilters = true := by
  cases op with
  | seek a => simp [applyRearm, Queue.seekOp]
  | ffmpeg args => simp [applyRearm, Queue.ffmpegOp]
  | filt s =>
    rcases filtersOp_shape eqGain q s with ⟨fs, rt, hok⟩ | herr
    · simp [applyRearm, hok]
    · rw [applyRearm, herr] at h
      simp at h

theorem cascade_af (eqGain : ℚ → ℤ) : ∀ (ops : List RearmOp) (q : Queue),
    q.applyingFilters = true → cascadeLaunches eqGain q ops = 0
  | [], _, _ => rfl
  | op :: rest, q, h => by
    have ha := applyRearm_af_true eqGain q op h
    simp only [cascadeLaunches, ha.1]
    rw [cascade_af eqGain rest _ ha.2]
    decide

theorem cascade_le_one (eqGain : ℚ → ℤ) : ∀ (ops : List RearmOp) (q : Queue),
    cascadeLaunches eqGain q ops ≤ 1
  | [], _ => by simp [cascadeLaunches]
  | op :: rest, q => by
    cases hl : (applyRearm eqGain q op).2 with
    | false =>
      have hr := cascade_le_one eqGain rest (applyRearm eqGain q op).1
      simp only [cascadeLaunches, hl]
      simpa using hr
    | true =>
      have hset := applyRearm_launch_sets eqGain q op hl
      have hz := cascade_af eqGain rest _ hset
      simp only [cascadeLaunches, hl, hz]
      decide

/-- C2: a re-arm (seek, filters, or ffmpeg) arriving while the
applying-filters latch is set launches no second `play()` and leaves the
latch set; a `play()` whose audio resource becomes ready while the latch is
set destroys the new playStream (result flag `true`) and leaves the queue —
in particular `current` — untouched; hence any consecutive cascade of
re-arms launches at most one `play()`. -/
theorem claim2_single_launch (eqGain : ℚ → ℤ) :
    (∀ (q : Queue) (op : RearmOp), q.applyingFilters = true →
      (applyRearm eqGain q op).2 = false ∧ (applyRearm eqGain q op).1.applyingFilters = true)
    ∧ (∀ (q : Queue) (meta : Track) (resource : ℚ), q.applyingFilters = true →
      Queue.playResourceReady q meta resource = (q, true))
    ∧ (∀ (q : Queue) (ops : List RearmOp), cascadeLaunches eqGain q ops ≤ 1) := by
  refine ⟨fun q op h => applyRearm_af_true eqGain q op h, ?_, fun q ops => cascade_le_one eqGain ops q⟩
  intro q meta resource h
  simp [Queue.playResourceReady, h]

/-- Witness for C2: with the latch set, a seek launches nothing, a resource
becoming ready is destroyed without touching the queue, and a two-step
cascade launches at most one play. -/
theorem claim2_witness :
    (applyRearm (fun _ => 0) qAF (RearmOp.seek 5)).2 = false ∧
    Queue.playResourceReady qAF trkEx 0 = (qAF, true) ∧
    cascadeLaunches (fun _ => 0) qAF [RearmOp.seek 5, RearmOp.ffmpeg []] ≤ 1 :=
  ⟨((claim2_single_launch (fun _ => 0)).1 qAF (RearmOp.seek 5) rfl).1,
   (claim2_single_launch (fun _ => 0)).2.1 qAF trkEx 0 rfl,
   (claim2_single_launch (fun _ => 0)).2.2 qAF [RearmOp.seek 5, RearmOp.ffmpeg []]⟩

/-- C7: evaluation of the equalizer branch at a failing input.  For any
FILTERS command whose spec holds a non-empty equalizer array, `Array(15)`
produces fifteen holes, `map` skips them all, and the first loop iteration's
`find` hands the callback `undefined`, whose `.band` access throws — the
whole filters call aborts with the chain left cleared and no equalizer
expression (let alone one per 15 bands) ever emitted. -/
theorem claim7_equalizer_throws (eqGain : ℚ → ℤ) (q : Queue) (e : EqBand)
    (rest : List EqBand) :
    Queue.filtersOp eqGain q { FilterSpec.empty with equalizer := some (e :: rest) } =
      .error { q with filters := [] } := rfl

/-- C8 counterexample: a FILTERS command whose spec carries a timescale
(speed 2) TOGETHER WITH a non-empty equalizer array — a case the claim
covers — throws in the equalizer loop before the timescale branch ever
runs: the call aborts with the chain cleared, no
`aresample=...,atempo=...` string is emitted, and the queue's rate stays 1
instead of becoming the speed 2 the claim requires. -/
theorem claim8_counterexample :
    Queue.filtersOp (fun _ => 0) (Queue.mk0 ("c") ("g")) fsTsEq =
      .error { Queue.mk0 ("c") ("g") with filters := [] } ∧
    ({ Queue.mk0 ("c") ("g") with filters := [] } : Queue).rate = 1 ∧
    jsOrQ (some 2) 1 = 2 ∧ (1 : ℚ) ≠ 2 := by
  refine ⟨rfl, rfl, by norm_num [jsOrQ], by norm_num⟩

/-- C8 as amended: a FILTERS command whose spec carries a timescale (rate,
pitch, speed each defaulting to 1.0) and no non-empty equalizer array (a
non-empty equalizer makes the call throw before the timescale branch — see
the counterexample) emits exactly
`aresample=48000,asetrate=48000*<pitch + (1.0-rate)>,atempo=<speed + (1.0-pitch)>,aresample=48000`
and stores `rate = speed` on the queue (the rate used by the position
computation); and for a spec that also carries other members (but no
non-empty equalizer) the same expression is emitted among the chain entries
with the same stored rate. -/
theorem claim8_timescale (eqGain : ℚ → ℤ) (q : Queue) (ts : Timescale) :
    (Queue.filtersOp eqGain q { FilterSpec.empty with timescale := some ts } =
      .ok ({ q with
        filters := preservedSS q.filters ++
          ["aresample=48000,asetrate=48000*" ++ ratStr (jsOrQ ts.pitch 1 + (1 - jsOrQ ts.rate 1)) ++
           ",atempo=" ++ ratStr (jsOrQ ts.speed 1 + (1 - jsOrQ ts.pitch 1)) ++ ",aresample=48000"],
        rate := jsOrQ ts.speed 1,
        applyingFilters := true }, !q.applyingFilters))
    ∧ (∀ f : FilterSpec, f.timescale = some ts → f.equalizer = none →
      ∃ r, Queue.filtersOp eqGain q f = .ok r ∧ r.1.rate = jsOrQ ts.speed 1 ∧
        ("aresample=48000,asetrate=48000*" ++ ratStr (jsOrQ ts.pitch 1 + (1 - jsOrQ ts.rate 1)) ++
         ",atempo=" ++ ratStr (jsOrQ ts.speed 1 + (1 - jsOrQ ts.pitch 1)) ++ ",aresample=48000")
          ∈ r.1.filters ∧
        r.2 = !q.applyingFilters) := by
  constructor
  · simp [Queue.filtersOp, FilterSpec.empty]
  · intro f hts heq
    unfold Queue.filtersOp
    rw [heq, hts]
    exact ⟨_, rfl, rfl, by simp, rfl⟩

/-- Witness for C8: a concrete spec carrying timescale and tremolo. -/
theorem claim8_witness :
    ∃ r, Queue.filtersOp (fun _ => 0) (Queue.mk0 ("c") ("g")) fsTsTrem = .ok r ∧
      r.1.rate = jsOrQ (some 2) 1 ∧
      ("aresample=48000,asetrate=48000*" ++ ratStr (jsOrQ none 1 + (1 - jsOrQ none 1)) ++
       ",atempo=" ++ ratStr (jsOrQ (some 2) 1 + (1 - jsOrQ none 1)) ++ ",aresample=48000")
        ∈ r.1.filters ∧
      r.2 = !(Queue.mk0 ("c") ("g")).applyingFilters :=
  (claim8_timescale (fun _ => 0) (Queue.mk0 ("c") ("g")) ⟨none, none, some 2⟩).2
    fsTsTrem rfl rfl

/-- C5: when an upgrade request carries a Resume-Key for which a
ResumeBuffer exists, the buffer's expiry timer is cancelled (the entry
leaves `socketDeleteTimeouts`, so it can no longer fire), every buffered
event is replayed on the new socket in buffering order before anything
else, and `Session-Resumed: true` is sent; when no such buffer exists the
header value is false and nothing is replayed. -/
theorem claim5_resume (g : GatewayState) (uid : String) (rk : Option String) (s : ℕ) :
    (∀ k buf, truthyStr rk = some k → alistGet g.socketDeleteTimeouts k = some buf →
      (handleUpgrade g uid rk s).sessionResumed = true ∧
      (handleUpgrade g uid rk s).replayed = buf.events ∧
      alistGet (handleUpgrade g uid rk s).state.socketDeleteTimeouts k = none)
    ∧ ((∀ k, truthyStr rk = some k → alistGet g.socketDeleteTimeouts k = none) →
      (handleUpgrade g uid rk s).sessionResumed = false ∧
      (handleUpgrade g uid rk s).replayed = []) := by
  constructor
  · intro k buf hk hbuf
    simp [handleUpgrade, hk, hbuf, alistGet_delete_self]
  · intro hmiss
    cases hrk : truthyStr rk with
    | none => simp [handleUpgrade, hrk]
    | some k =>
      have hb := hmiss k hrk
      simp [handleUpgrade, hrk, hb]

/-- Witness for C5: resuming with key `k` against a buffer holding two
events replays both in order, removes the buffer, and reports true; an
unknown key reports false. -/
theorem claim5_witness :
    (handleUpgrade gEx ("42") (some ("k")) 7).sessionResumed = true ∧
    (handleUpgrade gEx ("42") (some ("k")) 7).replayed = ["e1", "e2"] ∧
    alistGet (handleUpgrade gEx ("42") (some ("k")) 7).state.socketDeleteTimeouts ("k") = none ∧
    (handleUpgrade gEx ("42") (some ("nope")) 7).sessionResumed = false := by
  have h1 := (claim5_resume gEx ("42") (some ("k")) 7).1 ("k") ⟨["e1", "e2"]⟩
    (by decide) (by decide)
  have h2 := (claim5_resume gEx ("42") (some ("nope")) 7).2 ?_
  · exact ⟨h1.1, h1.2.1, h1.2.2, h2.1⟩
  · intro k hk
    have hkk : k = "nope" := by simpa [truthyStr] using hk.symm
    subst hkk
    decide

/-- C6 counterexample: with the target socket present in `playerMap` and an
active ResumeBuffer on its connection's resume-key, one outbound event is
BOTH appended to the buffer AND sent on the socket — refuting the claim
that exactly one of the two ever happens. -/
theorem claim6_counterexample :
    (poolOnMessage gBoth ("c") ("g") ("ev")).appended = true ∧
    (poolOnMessage gBoth ("c") ("g") ("ev")).sentOn = some 1 ∧
    alistGet (poolOnMessage gBoth ("c") ("g") ("ev")).state.socketDeleteTimeouts ("k") =
      some ⟨["ev"]⟩ := by
  refine ⟨by decide, by decide, by decide⟩

/-- C6 as amended: the outbound handler appends the event to the buffer
when the first record of the connection list containing the `playerMap`
socket has a resume-key with an existing ResumeBuffer (order preserved),
and it independently attempts a send exactly when the `playerMap` lookup
yields a socket — the two actions are not mutually exclusive. -/
theorem claim6_outbound (g : GatewayState) (cid gid p : String) :
    (poolOnMessage g cid gid p).sentOn = alistGet g.playerMap (cid ++ "." ++ gid) ∧
    (poolOnMessage g cid gid p).appended = (outboundActiveKey g cid gid).isSome ∧
    (∀ k buf, outboundActiveKey g cid gid = some k →
      alistGet g.socketDeleteTimeouts k = some buf →
      alistGet (poolOnMessage g cid gid p).state.socketDeleteTimeouts k =
        some ⟨buf.events ++ [p]⟩) ∧
    (outboundActiveKey g cid gid = none →
      (poolOnMessage g cid gid p).state = g ∧ (poolOnMessage g cid gid p).appended = false) := by
  refine ⟨rfl, rfl, ?_, ?_⟩
  · intro k buf hk hbuf
    simp [poolOnMessage, hk, hbuf, alistGet_set_self]
  · intro hk
    simp [poolOnMessage, hk]

/-- Witness for C6 (amended): the concrete both-append-and-send state. -/
theorem claim6_witness :
    alistGet (poolOnMessage gBoth ("c") ("g") ("ev")).state.socketDeleteTimeouts ("k") =
      some ⟨[] ++ ["ev"]⟩ ∧
    (poolOnMessage gBoth ("c") ("g") ("ev")).sentOn =
      alistGet gBoth.playerMap (("c") ++ "." ++ ("g")) :=
  ⟨(claim6_outbound gBoth ("c") ("g") ("ev")).2.2.1 ("k") ⟨[]⟩ (by decide) (by decide),
   (claim6_outbound gBoth ("c") ("g") ("ev")).1⟩

theorem leastLoadedIdx_lt (ws : List WorkerQueues) (hne : ws ≠ []) :
    leastLoadedIdx ws < ws.length := by
  unfold leastLoadedIdx
  cases hm : (List.map List.length ws).min? with
  | none =>
    rw [List.min?_eq_none_iff] at hm
    exact absurd (List.map_eq_nil_iff.mp hm) hne
  | some m =>
    have hmem := List.min?_mem (fun a b => min_choice a b) hm
    obtain ⟨w, hw, hlen⟩ := List.mem_map.mp hmem
    exact List.findIdx_lt_length_of_exists ⟨w, hw, by simpa using hlen⟩

theorem workerPlay_create (w : WorkerQueues) (uid gid : String) (pd : PlayData)
    (h : lookupKey w (uid ++ "." ++ gid) = none) :
    ∃ q2, lookupKey (workerPlay w false uid gid pd).queues (uid ++ "." ++ gid) = some q2 ∧
      q2.track = some (mkTrack pd) := by
  refine ⟨((Queue.mk0 uid gid).queueOp (mkTrack pd)).1, ?_, queueOp_track _ _⟩
  simp only [workerPlay, h]
  exact alistGet_set_self w (uid ++ "." ++ gid) _

/-- C4 counterexample: a broadcast PLAY with `noReplace` set, hitting a
worker that owns the key while its player is playing, is answered `true`
but the track is NOT enqueued — the owning queue's track stays `none`
instead of becoming the requested track. -/
theorem claim4_counterexample :
    (workerPlay wOwn true ("c") ("g") pdNR).reply = some true ∧
    (lookupKey (workerPlay wOwn true ("c") ("g") pdNR).queues (("c") ++ "." ++ ("g"))).map
      Queue.track = some none ∧
    (some (mkTrack pdNR) : Option Track) ≠ none := by
  refine ⟨by decide, by decide, by decide⟩

/-- C4 as amended: the dispatcher broadcasts every PLAY; a worker without a
queue for the key answers `false` and changes nothing; a worker owning the
key answers `true` and — unless `noReplace` is set while its player is
currently playing, in which case the request is skipped — enqueues the
track on the existing queue; and when no worker answered `true`, the
message is executed on the least-loaded worker, which creates the queue
there, all other workers staying unchanged. -/
theorem claim4_play_routing :
    (∀ (w : WorkerQueues) (uid gid : String) (pd : PlayData),
      lookupKey w (uid ++ "." ++ gid) = none →
      workerPlay w true uid gid pd = ⟨w, some false, false, []⟩)
    ∧ (∀ (w : WorkerQueues) (uid gid : String) (pd : PlayData) (q : Queue),
      lookupKey w (uid ++ "." ++ gid) = some q →
      (workerPlay w true uid gid pd).reply = some true ∧
      (¬(pd.noReplace = true ∧ q.playerPlaying = true) →
        ∃ q2, lookupKey (workerPlay w true uid gid pd).queues (uid ++ "." ++ gid) = some q2 ∧
          q2.track = some (mkTrack pd)))
    ∧ (∀ (ws : List WorkerQueues) (uid gid : String) (pd : PlayData),
      ws ≠ [] → (∀ w ∈ ws, lookupKey w (uid ++ "." ++ gid) = none) →
      ∃ w2, (dispatchPlay ws uid gid pd)[leastLoadedIdx ws]? = some w2 ∧
        (∃ q2, lookupKey w2 (uid ++ "." ++ gid) = some q2 ∧ q2.track = some (mkTrack pd)) ∧
        ∀ j, j ≠ leastLoadedIdx ws → (dispatchPlay ws uid gid pd)[j]? = ws[j]?) := by
  have hpart1 : ∀ (w : WorkerQueues) (uid gid : String) (pd : PlayData),
      lookupKey w (uid ++ "." ++ gid) = none →
      workerPlay w true uid gid pd = ⟨w, some false, false, []⟩ := by
    intro w uid gid pd h
    simp [workerPlay, h]
  refine ⟨hpart1, ?_, ?_⟩
  · intro w uid gid pd q hq
    constructor
    · simp only [workerPlay, hq]
      split <;> rfl
    · intro hnr
      by_cases hc : pd.noReplace = true ∧ q.playerPlaying = true
      · exact absurd hc hnr
      · refine ⟨(q.queueOp (mkTrack pd)).1, ?_, queueOp_track _ _⟩
        simp only [workerPlay, hq, if_neg hc]
        exact alistGet_set_self w (uid ++ "." ++ gid) _
  · intro ws uid gid pd hne hall
    have hres : ∀ w ∈ ws, workerPlay w true uid gid pd = ⟨w, some false, false, []⟩ :=
      fun w hw => hpart1 w uid gid pd (hall w hw)
    have hqueues : List.map PlayOutcome.queues
        (List.map (fun w => workerPlay w true uid gid pd) ws) = ws := by
      rw [List.map_map]
      have : ∀ w ∈ ws, (PlayOutcome.queues ∘ fun w => workerPlay w true uid gid pd) w = id w := by
        intro w hw
        simp [Function.comp, hres w hw]
      rw [List.map_congr_left this, List.map_id]
    have hnotrue : ¬ (some true ∈ List.map PlayOutcome.reply
        (List.map (fun w => workerPlay w true uid gid pd) ws)) := by
      intro hmem
      rw [List.map_map] at hmem
      obtain ⟨w, hw, hwr⟩ := List.mem_map.mp hmem
      rw [Function.comp_apply, hres w hw] at hwr
      simp at hwr
    have hdisp : dispatchPlay ws uid gid pd =
        ws.set (leastLoadedIdx ws)
          (workerPlay (ws.getD (leastLoadedIdx ws) []) false uid gid pd).queues := by
      unfold dispatchPlay
      rw [if_neg hnotrue, hqueues]
    have hi := leastLoadedIdx_lt ws hne
    have hgd : ws.getD (leastLoadedIdx ws) [] ∈ ws := by
      rw [List.getD_eq_getElem?_getD, List.getElem?_eq_getElem hi]
      exact List.getElem_mem hi
    obtain ⟨q2, hq2, ht2⟩ :=
      workerPlay_create (ws.getD (leastLoadedIdx ws) []) uid gid pd
        (hall _ hgd)
    refine ⟨_, ?_, ⟨q2, hq2, ht2⟩, ?_⟩
    · rw [hdisp, List.getElem?_set_self]
      exact hi
    · intro j hj
      rw [hdisp, List.getElem?_set_ne (fun hh => hj hh.symm)]

/-- Witness for C4 (amended): a keyless worker answers false; an owning
worker answers true and enqueues; with no owner, the executed message
creates the queue on the least-loaded worker. -/
theorem claim4_witness :
    workerPlay [] true ("c") ("g") pdEx = ⟨[], some false, false, []⟩ ∧
    (workerPlay wOwn true ("c") ("g") pdEx).reply = some true ∧
    (∃ q2, lookupKey (workerPlay wOwn true ("c") ("g") pdEx).queues
        (("c") ++ "." ++ ("g")) = some q2 ∧ q2.track = some (mkTrack pdEx)) ∧
    (∃ w2, (dispatchPlay [[]] ("c") ("g") pdEx)[leastLoadedIdx [[]]]? = some w2 ∧
      (∃ q2, lookupKey w2 (("c") ++ "." ++ ("g")) = some q2 ∧
        q2.track = some (mkTrack pdEx)) ∧
      ∀ j, j ≠ leastLoadedIdx [[]] →
        (dispatchPlay [[]] ("c") ("g") pdEx)[j]? = ([[]] : List WorkerQueues)[j]?) := by
  refine ⟨claim4_play_routing.1 [] ("c") ("g") pdEx rfl, ?_, ?_, ?_⟩
  · exact (claim4_play_routing.2.1 wOwn ("c") ("g") pdEx
      { Queue.mk0 ("c") ("g") with playerPlaying := true } (by decide)).1
  · exact (claim4_play_routing.2.1 wOwn ("c") ("g") pdEx
      { Queue.mk0 ("c") ("g") with playerPlaying := true } (by decide)).2 (by decide)
  · refine claim4_play_routing.2.2 [[]] ("c") ("g") pdEx (by decide) ?_
    intro w hw
    have hwe : w = [] := by simpa using hw
    subst hwe
    rfl

end Volcano
